import Mathlib

/-!
Shallow embedding of the crawl-diff-notify pipeline of the scrapper-web
repository: src/scrapers/base_scraper.py (BaseScraper.scrape),
src/database_manager.py (DatabaseManager), src/config.py, and
src/scraper/common/notification_manager.py (NotificationManager).

Python scalar values that flow through the pipeline (listing fields) are
None, str and int; they are modelled by `Val`.  Dict-valued rows of the
update payload (the nested candidate stored under the key "raw_data") are
modelled by `PVal`.  Timestamps are naturals (think microseconds);
`datetime.datetime.now()` becomes an explicit `now` argument.
-/

set_option maxRecDepth 100000

namespace Scrapper

/-- Python scalar value: None, a string, or an int. -/
inductive Val where
  | none
  | str (s : String)
  | int (n : Int)
  deriving DecidableEq, Repr

/-- Python truthiness of a scalar: None, the empty string and 0 are falsy. -/
def Val.truthy : Val → Bool
  | .none => false
  | .str s => s ≠ ""
  | .int n => n ≠ 0

/-- Python str() of a scalar value. -/
def pyStr : Val → String
  | .none => "None"
  | .str s => s
  | .int n => toString n

/-- A Python dict with scalar values, as an insertion-ordered association
list with unique keys (listing summaries, detail records, candidates). -/
abbrev Record := List (String × Val)

/-- Lookup of dict.get(k): a missing key yields Python None. -/
def Record.getVal (r : Record) (k : String) : Val :=
  ((r.find? (fun p => p.1 = k)).map (fun p => p.2)).getD .none

/-- Dict assignment d[k] = v: replace in place if the key exists, else
append (Python dicts preserve insertion order). -/
def Record.set (r : Record) (k : String) (v : Val) : Record :=
  if r.any (fun p => p.1 = k) then
    r.map (fun p => if p.1 = k then (k, v) else p)
  else r ++ [(k, v)]

/-- Dict merge written as a double splat in the source, b overriding a. -/
def Record.merge (a b : Record) : Record :=
  b.foldl (fun acc kv => acc.set kv.1 kv.2) a

/-- Dict setdefault(k, v). -/
def Record.setdefault (r : Record) (k : String) (v : Val) : Record :=
  if r.any (fun p => p.1 = k) then r else r ++ [(k, v)]

/-- A value of the update payload dict handed to the database layer: a
scalar, or a nested dict (the merged candidate under the key "raw_data"). -/
inductive PVal where
  | v (x : Val)
  | dict (r : Record)
  deriving DecidableEq, Repr

/-- The dict handed to add_listing / update_listing.  The raw_data column
stores json.dumps of exactly this dict, so the column is modelled as the
payload itself (serialization is injective on these finite trees). -/
abbrev Payload := List (String × PVal)

/-- Lookup of a key of the payload dict. -/
def Payload.get? (p : Payload) (k : String) : Option PVal :=
  (p.find? (fun q => q.1 = k)).map (fun q => q.2)

/-- View of the candidate record as the payload the claim text would have
the raw_data column hold (the candidate serialized on its own). -/
def recPayload (r : Record) : Payload := r.map (fun p => (p.1, PVal.v p.2))

/-! Configuration, src/config.py. -/

/-- TRACKED_FIELDS_FOR_NOTIFICATION of src/config.py. -/
def TRACKED_FIELDS_FOR_NOTIFICATION : List String :=
  ["price", "description", "image_count"]

/-! The diff of BaseScraper.scrape, lines 154-176. -/

/-- Change tuple (field, str(old_value)[:50], str(new_value)[:50]) appended
to changes_for_notification. -/
structure ChangeEntry where
  field : String
  old : String
  new : String
  deriving DecidableEq, Repr

/-- Python int(x): succeeds on ints and on strings that parse as an
integer after stripping whitespace; a failure raises (None is kept as None
by the guarding conditional expression of the source). -/
def convVal : Val → Option Val
  | .none => some .none
  | .int n => some (.int n)
  | .str s => (s.trim.toInt?).map Val.int

/-- The try block of lines 165-169: the first assignment converts
old_value; if the second conversion raises, old_value has already been
reassigned while new_value keeps its raw value. -/
def convertPair (oldV newV : Val) : Val × Val :=
  match convVal oldV with
  | Option.none => (oldV, newV)
  | some o =>
    match convVal newV with
    | Option.none => (o, newV)
    | some n => (o, n)

/-- The pair actually compared for a field: image_count goes through the
int() conversion, every other field is compared raw (lines 164-171). -/
def convPair (f : String) (oldV newV : Val) : Val × Val :=
  if f = "image_count" then convertPair oldV newV else (oldV, newV)

/-- One iteration of the field loop (lines 160-174): on inequality of the
compared pair, the (possibly converted) new value enters the update
payload and, for a tracked field, a truncated change tuple is produced. -/
def diffField (f : String) (oldV newV : Val) : Option (Val × Option ChangeEntry) :=
  let p := convPair f oldV newV
  if p.1 = p.2 then Option.none
  else some (p.2,
    if f ∈ TRACKED_FIELDS_FOR_NOTIFICATION then
      some ⟨f, (pyStr p.1).take 50, (pyStr p.2).take 50⟩
    else Option.none)

/-- fields_to_check_for_update of line 158. -/
def fields_to_check_for_update : List String :=
  ["title", "price", "description", "image_count", "first_image_url"]

/-! The database row and DatabaseManager, src/database_manager.py. -/

/-- One row of the listings table (id omitted: never read by the core). -/
structure Row where
  url : Val
  site_name : Val
  title : Val
  price : Val
  description : Val
  image_count : Val
  first_image_url : Val
  raw_data : Payload
  first_seen : Nat
  last_updated : Nat
  last_checked : Nat
  deriving DecidableEq, Repr

/-- Subscript access existing_listing_row[field] for the five checked
fields. -/
def Row.field (r : Row) : String → Val
  | "title" => r.title
  | "price" => r.price
  | "description" => r.description
  | "image_count" => r.image_count
  | "first_image_url" => r.first_image_url
  | _ => .none

/-- The listings table. -/
structure DB where
  rows : List Row
  deriving DecidableEq, Repr

/-- SELECT * FROM listings WHERE url = ? (get_listing_by_url). -/
def DB.get_listing_by_url (db : DB) (url : Val) : Option Row :=
  db.rows.find? (fun r => r.url = url)

/-- Scalar read data.get(k) used to bind a dedicated column; a nested dict
cannot be bound by sqlite3 and makes the whole statement raise. -/
def Payload.colVal? (p : Payload) (k : String) : Option Val :=
  match p.get? k with
  | Option.none => some .none
  | some (.v x) => some x
  | some (.dict _) => Option.none

/-- direct_column_fields of update_listing, line 91. -/
def direct_column_fields : List String :=
  ["title", "price", "description", "image_count", "first_image_url", "site_name"]

/-- All values bound for dedicated columns are scalars (otherwise sqlite3
raises, the except block logs, and nothing is written). -/
def Payload.bindOk (p : Payload) : Bool :=
  direct_column_fields.all fun f =>
    match p.get? f with
    | some (.dict _) => false
    | _ => true

/-- DatabaseManager.add_listing: INSERT of the dedicated columns read from
the data dict, raw_data = json.dumps(data), first_seen defaulting to now,
last_updated = last_checked = now.  A duplicate url raises IntegrityError
which is caught, leaving the table unchanged; a nested value under a
dedicated-column key would fail to bind, likewise leaving it unchanged. -/
def DB.add_listing (db : DB) (data : Payload) (now : Nat) : DB :=
  match data.colVal? "url", data.colVal? "site_name", data.colVal? "title",
      data.colVal? "price", data.colVal? "description", data.colVal? "image_count",
      data.colVal? "first_image_url" with
  | some url, some site, some title, some price, some desc, some ic, some fiu =>
    if (db.get_listing_by_url url).isSome then db
    else
      let newRow : Row :=
        { url := url, site_name := site, title := title, price := price,
          description := desc, image_count := ic, first_image_url := fiu,
          raw_data := data, first_seen := now, last_updated := now, last_checked := now }
      ⟨db.rows ++ [newRow]⟩
  | _, _, _, _, _, _, _ => db

/-- SET f = ? for one dedicated column: updated when the key is present in
update_data, kept otherwise (update_listing lines 93-96). -/
def colUpd (upd : Payload) (f : String) (old : Val) : Val :=
  match upd.get? f with
  | some (.v x) => x
  | _ => old

/-- The SET list applied to a row: each of the six direct column fields
present in update_data is overwritten with its bound value. -/
def applyDirect (r : Row) (upd : Payload) : Row :=
  { r with
    title := colUpd upd "title" r.title,
    price := colUpd upd "price" r.price,
    description := colUpd upd "description" r.description,
    image_count := colUpd upd "image_count" r.image_count,
    first_image_url := colUpd upd "first_image_url" r.first_image_url,
    site_name := colUpd upd "site_name" r.site_name }

/-- DatabaseManager.update_listing: dedicated columns present in
update_data are set, raw_data is always overwritten with
json.dumps(update_data), and last_updated and last_checked are always set
to now, on the row matching the url (no row: rowcount 0, nothing happens).
A dict bound under a dedicated-column key raises, writing nothing. -/
def DB.update_listing (db : DB) (url : Val) (upd : Payload) (now : Nat) : DB :=
  if upd.bindOk then
    ⟨db.rows.map fun r =>
      if r.url = url then
        let r2 := applyDirect r upd
        { r2 with raw_data := upd, last_updated := now, last_checked := now }
      else r⟩
  else db

/-- DatabaseManager.update_last_checked: UPDATE listings SET
last_checked = ? WHERE url = ?. -/
def DB.update_last_checked (db : DB) (url : Val) (now : Nat) : DB :=
  ⟨db.rows.map fun r => if r.url = url then { r with last_checked := now } else r⟩

/-! NotificationManager, src/scraper/common/notification_manager.py.
Embed dictionaries are modelled by their data content (which listing and,
for an update, which filtered changes appear); the Discord styling around
that content is presentation only.  An embed dict is nonempty, hence
truthy, whenever the formatter returns one at all. -/

/-- The embed payload built by format_new_listing_embed or
format_updated_listing_embed. -/
inductive Embed where
  | newListing (listing : Record)
  | updatedListing (listing : Record) (realChanges : List ChangeEntry)
  deriving DecidableEq, Repr

/-- The filter of format_updated_listing_embed lines 103-107: an entry is
kept when str(ov) != str(nv); ov and nv are already strings here, so str
is the identity.  The ignore_identical_values branch only skips price
entries with equal values, which the second test drops anyway. -/
def keepChange (ignore : Bool) (c : ChangeEntry) : Bool :=
  if c.field = "price" && ignore && (c.old = c.new : Bool) then false
  else c.old ≠ c.new

/-- format_new_listing_embed: always returns a (truthy) embed dict for the
listing. -/
def format_new_listing_embed (listing : Record) : Embed := .newListing listing

/-- format_updated_listing_embed: filters the changes down to real_changes
and returns None when none survive. -/
def format_updated_listing_embed (ignore : Bool) (listing : Record)
    (changes : List ChangeEntry) : Option Embed :=
  let real := changes.filter (keepChange ignore)
  if real.isEmpty then Option.none else some (.updatedListing listing real)

/-- One queued notification: dict with message_content, embed and
timestamp (lines 23-27). -/
structure QItem where
  message_content : Option String
  embed : Option Embed
  timestamp : Nat
  deriving DecidableEq, Repr

/-- MIN_NOTIFICATION_INTERVAL = 1.0 second, in the microsecond resolution
of datetime; timedelta arithmetic at this scale is exact. -/
def MIN_NOTIFICATION_INTERVAL : Nat := 1000000

/-- The mutable state of NotificationManager. -/
structure NMState where
  webhook_url : Option String
  ignore_identical_values : Bool
  last_notification_time : Option Nat
  notification_queue : List QItem
  deriving DecidableEq, Repr

/-- NotificationManager.__init__(webhook_url). -/
def NMState.init (url : Option String) : NMState :=
  { webhook_url := url, ignore_identical_values := false,
    last_notification_time := Option.none, notification_queue := [] }

/-- Truthiness of self.webhook_url: None or the empty string disables
notifications. -/
def webhookTruthy : Option String → Bool
  | some s => s ≠ ""
  | Option.none => false

/-- Truthiness of the payload built for a queued item: message_content
must be a nonempty string or the embed must be present (a formatter embed
dict is nonempty). -/
def QItem.payloadTruthy (it : QItem) : Bool :=
  (match it.message_content with
   | some s => s ≠ ""
   | Option.none => false) || it.embed.isSome

/-- NotificationManager._process_queue, with the outcome of the one
requests.post attempt supplied as `ok`.  Empty queue: no-op.  Inside the
minimum interval since the last successful send: no-op, the head stays
queued.  Otherwise the head is popped; an empty payload is discarded; a
successful post records last_notification_time = now; a failed post
re-inserts the item at index 0. -/
def NMState.process_queue (st : NMState) (now : Nat) (ok : Bool) : NMState :=
  match st.notification_queue with
  | [] => st
  | item :: rest =>
    if (match st.last_notification_time with
        | some t => decide (now - t < MIN_NOTIFICATION_INTERVAL)
        | Option.none => false) then st
    else if ¬ item.payloadTruthy then { st with notification_queue := rest }
    else if ok then
      { st with notification_queue := rest, last_notification_time := some now }
    else
      { st with notification_queue := item :: rest }

/-- NotificationManager.send_notification: disabled manager returns at
once; otherwise the item is appended to the queue and the queue is
processed. -/
def NMState.send_notification (st : NMState) (now : Nat) (msg : Option String)
    (embed : Option Embed) (ok : Bool) : NMState :=
  if ¬ webhookTruthy st.webhook_url then st
  else
    NMState.process_queue
      { st with notification_queue :=
          st.notification_queue ++ [⟨msg, embed, now⟩] } now ok

/-- Whether this _process_queue call performs a successful send (pops the
head, posts it and records the send time). -/
def NMState.drainSends (st : NMState) (now : Nat) (ok : Bool) : Bool :=
  match st.notification_queue with
  | [] => false
  | item :: _ =>
    !(match st.last_notification_time with
      | some t => decide (now - t < MIN_NOTIFICATION_INTERVAL)
      | Option.none => false) && item.payloadTruthy && ok

/-- Whether this send_notification call dispatches a notification. -/
def NMState.sendHappens (st : NMState) (now : Nat) (msg : Option String)
    (embed : Option Embed) (ok : Bool) : Bool :=
  webhookTruthy st.webhook_url &&
    NMState.drainSends
      { st with notification_queue := st.notification_queue ++ [⟨msg, embed, now⟩] }
      now ok

/-! The per-listing reconciliation of BaseScraper.scrape, lines 120-191. -/

/-- The iteration order of the Python set
set(TRACKED_FIELDS_FOR_NOTIFICATION + [title, first_image_url]) is
unspecified; it is fixed here in list order.  Only the insertion order of
defaulted (hence None-valued) keys depends on it. -/
def key_fields_to_default : List String :=
  ["price", "description", "image_count", "title", "first_image_url"]

/-- current_listing_data of lines 120-133: merge of summary and detail
(detail winning), url and site_name stamped, tracked and key fields
defaulted to None, and a None image_count defaulted to 0. -/
def mkCandidate (summary detail : Record) (url : Val) (site : String) : Record :=
  let c := ((Record.merge summary detail).set "url" url).set "site_name" (.str site)
  let c := key_fields_to_default.foldl (fun c f => c.setdefault f .none) c
  if c.getVal "image_count" = Val.none then c.set "image_count" (.int 0) else c

/-- The contribution of one checked field to update_payload_for_db. -/
def payOne (d : String × Option (Val × Option ChangeEntry)) : List (String × PVal) :=
  match d with
  | (f, some (nv, _)) => [(f, PVal.v nv)]
  | (_, Option.none) => []

/-- The contribution of one checked field to changes_for_notification. -/
def chgOne (d : String × Option (Val × Option ChangeEntry)) : List ChangeEntry :=
  match d with
  | (_, some (_, some ce)) => [ce]
  | _ => []

/-- The loop of lines 155-176 over fields_to_check_for_update, producing
update_payload_for_db (with raw_data = the candidate appended last) and
changes_for_notification; the loop appends in field order, which is the
concatenation below. -/
def computeDiff (row : Row) (cand : Record) : Payload × List ChangeEntry :=
  let ds := fields_to_check_for_update.map
    (fun f => (f, diffField f (Row.field row f) (Record.getVal cand f)))
  ((ds.map payOne).flatten ++ [("raw_data", PVal.dict cand)], (ds.map chgOne).flatten)

/-- The result of reconciling one candidate. -/
structure StepResult where
  db : DB
  nm : NMState
  created : Bool
  changes : List ChangeEntry
  deriving Repr

/-- db_insert_data of lines 138-147, in dict literal order. -/
def insertData (url : Val) (site : String) (cand : Record) : Payload :=
  [("url", .v url), ("site_name", .v (.str site)),
   ("title", .v (cand.getVal "title")), ("price", .v (cand.getVal "price")),
   ("description", .v (cand.getVal "description")),
   ("image_count", .v (cand.getVal "image_count")),
   ("first_image_url", .v (cand.getVal "first_image_url")),
   ("raw_data", .dict cand)]

/-- Lines 135-191 of BaseScraper.scrape: look the url up; on a miss,
add_listing with db_insert_data and send a new-listing notification; on a
hit, diff, update_listing with the payload, and send an updated-listing
notification when changes_for_notification is nonempty.  `created` records
which branch ran, `changes` the produced change tuples.  All the
datetime.now() calls of one reconciliation are modelled by one `now`;
`ok` is the outcome of a post attempt. -/
def processCandidate (site : String) (url : Val) (cand : Record)
    (db : DB) (nm : NMState) (now : Nat) (ok : Bool) : StepResult :=
  match db.get_listing_by_url url with
  | Option.none =>
    let db2 := db.add_listing (insertData url site cand) now
    let nm2 := nm.send_notification now Option.none
      (some (format_new_listing_embed cand)) ok
    ⟨db2, nm2, true, []⟩
  | some row =>
    let pc := computeDiff row cand
    let db2 := db.update_listing url pc.1 now
    let nm2 :=
      if pc.2 ≠ [] then
        nm.send_notification now Option.none
          (format_updated_listing_embed nm.ignore_identical_values cand pc.2) ok
      else nm
    ⟨db2, nm2, false, pc.2⟩

/-! The crawl loop of BaseScraper.scrape, lines 78-199. -/

/-- The four abstract extractor operations of one concrete scraper (the
search criteria are fixed for a run and baked in). -/
structure Extractor where
  fetch_listings_page : Nat → Option String
  parse_listings : String → List Record × Bool
  fetch_listing_details_page : Val → Option String
  parse_listing_details : String → Option Record

/-- Truthiness of a fetched page: None and the empty string are falsy. -/
def htmlTruthy : Option String → Bool
  | some s => s ≠ ""
  | Option.none => false

/-- Truthiness of a parse_listing_details result: None and the empty dict
are falsy. -/
def detailTruthy : Option Record → Bool
  | some r => ¬ r.isEmpty
  | Option.none => false

/-- The state threaded through a crawl: the shared store and dispatcher,
plus a strictly monotone clock supplying the datetime.now() values (one
tick per processed summary). -/
structure ScrapeState where
  db : DB
  nm : NMState
  clock : Nat
  deriving Repr

/-- Lines 97-192, one summary: a summary without a truthy url is skipped;
a failed detail fetch or a falsy detail parse touches last_checked of an
already known listing and skips; otherwise the merged candidate is
reconciled and yielded into processed_properties_data. -/
def processSummary (site : String) (ex : Extractor) (ok : Bool)
    (st : ScrapeState) (summary : Record) : ScrapeState × Option Record :=
  let now := st.clock
  let url := Record.getVal summary "url"
  if ¬ url.truthy then ({ st with clock := now + 1 }, Option.none)
  else
    let html := ex.fetch_listing_details_page url
    if ¬ htmlTruthy html then
      (if (st.db.get_listing_by_url url).isSome then
        { st with db := st.db.update_last_checked url now, clock := now + 1 }
       else { st with clock := now + 1 }, Option.none)
    else
      let detail := ex.parse_listing_details (html.getD "")
      if ¬ detailTruthy detail then
        (if (st.db.get_listing_by_url url).isSome then
          { st with db := st.db.update_last_checked url now, clock := now + 1 }
         else { st with clock := now + 1 }, Option.none)
      else
        let cand := mkCandidate summary (detail.getD []) url site
        let res := processCandidate site url cand st.db st.nm now ok
        ({ db := res.db, nm := res.nm, clock := now + 1 }, some cand)

/-- The for loop over the summaries of one page, collecting the processed
candidates in order. -/
def processSummaries (site : String) (ex : Extractor) (ok : Bool) :
    ScrapeState → List Record → ScrapeState × List Record
  | st, [] => (st, [])
  | st, s :: rest =>
    let r := processSummary site ex ok st s
    let w := processSummaries site ex ok r.1 rest
    (w.1, r.2.toList ++ w.2)

/-- The while loop of lines 79-196 with the page counter made explicit:
`fuel` is the number of page values left before the counter exceeds
MAX_PAGES.  Returns the final state, processed_properties_data, and the
list of pages whose listings were processed. -/
def scrapeGo (site : String) (ex : Extractor) (ok : Bool) :
    Nat → Nat → ScrapeState → ScrapeState × List Record × List Nat
  | 0, _, st => (st, [], [])
  | fuel + 1, page, st =>
    let html := ex.fetch_listings_page page
    if ¬ htmlTruthy html then (st, [], [])
    else
      let pr := ex.parse_listings (html.getD "")
      if pr.1.isEmpty then (st, [], [])
      else
        let step := processSummaries site ex ok st pr.1
        if pr.2 then
          let rest := scrapeGo site ex ok fuel (page + 1) step.1
          (rest.1, step.2 ++ rest.2.1, page :: rest.2.2)
        else (step.1, step.2, [page])

/-- BaseScraper.scrape for one source: pages 1, 2, ... up to MAX_PAGES. -/
def scrape (MAX_PAGES : Nat) (site : String) (ex : Extractor) (ok : Bool)
    (st : ScrapeState) : ScrapeState × List Record × List Nat :=
  scrapeGo site ex ok MAX_PAGES 1 st

/-- The dedicated-column value a row holds for a checked field after the
field loop ran on (old, new): the payload value if the field entered the
update payload, the untouched old value otherwise. -/
def postField (f : String) (oldV newV : Val) : Val :=
  match diffField f oldV newV with
  | some (nv, _) => nv
  | Option.none => oldV

/-- The row add_listing inserts for db_insert_data. -/
def insertRow (url : Val) (site : String) (cand : Record) (now : Nat) : Row :=
  { url := url, site_name := .str site,
    title := cand.getVal "title", price := cand.getVal "price",
    description := cand.getVal "description", image_count := cand.getVal "image_count",
    first_image_url := cand.getVal "first_image_url",
    raw_data := insertData url site cand,
    first_seen := now, last_updated := now, last_checked := now }

/-- The row update_listing leaves behind when reconciling cand against the
stored row. -/
def updatedRow (row : Row) (cand : Record) (now : Nat) : Row :=
  let r2 := applyDirect row (computeDiff row cand).1
  { r2 with raw_data := (computeDiff row cand).1, last_updated := now, last_checked := now }

/-- One externally observable notification event: a send_notification call
at a given time, with the outcome the sink would give the post attempt. -/
inductive NMEvent where
  | notify (msg : Option String) (embed : Option Embed) (ok : Bool)

/-- The timestamps at which a run of send_notification calls actually
dispatches (each is the current_time recorded into
last_notification_time). -/
def runSentTimes (st : NMState) : List (Nat × NMEvent) → List Nat
  | [] => []
  | (now, .notify m e ok) :: rest =>
    (if st.sendHappens now m e ok then [now] else []) ++
      runSentTimes (st.send_notification now m e ok) rest

/-- Page p of the crawl has content: the listings page fetch is truthy and
parse_listings yields at least one summary. -/
def pageGood (ex : Extractor) (p : Nat) : Bool :=
  htmlTruthy (ex.fetch_listings_page p) &&
    !((ex.parse_listings ((ex.fetch_listings_page p).getD "")).1.isEmpty)

/-- The has_next_page flag parse_listings reports on page p. -/
def pageHasNext (ex : Extractor) (p : Nat) : Bool :=
  (ex.parse_listings ((ex.fetch_listings_page p).getD "")).2

/-- A stub extractor whose listings pages report has_next_page = false
exactly on page 3 (the page number is threaded through the fetched
content). -/
def stubEx : Extractor :=
  { fetch_listings_page := fun p => some (toString p),
    parse_listings := fun h => ([[("url", Val.str ("u" ++ h))]], h ≠ "3"),
    fetch_listing_details_page := fun _ => some "d",
    parse_listing_details := fun _ => some [("price", .str "1")] }

/-- Example summary record. -/
def exSummary : Record := [("url", .str "u"), ("price", .str "1")]

/-- Example detail record. -/
def exDetail : Record :=
  [("price", .str "1"), ("description", .str "d"), ("image_count", .int 2),
   ("title", .str "t")]

/-- Example merged candidate. -/
def exCand : Record := mkCandidate exSummary exDetail (.str "u") "S"

/-- Example stored row whose description column is NULL. -/
def exRowN : Row :=
  ⟨.str "u2", .str "S", .none, .none, .none, .int 0, .none, [], 0, 0, 0⟩

/-- An extractor whose fetches all fail. -/
def exFailEx : Extractor :=
  { fetch_listings_page := fun _ => Option.none,
    parse_listings := fun _ => ([], false),
    fetch_listing_details_page := fun _ => Option.none,
    parse_listing_details := fun _ => Option.none }

/-- A disabled notification manager (no webhook configured). -/
def exNM : NMState := NMState.init Option.none

/-- An enabled notification manager. -/
def exNMOn : NMState := NMState.init (some "https://discord.com/api/webhooks/x")

/-! Helper lemmas. -/

theorem find?_append' {α : Type} (p : α → Bool) (l₁ l₂ : List α) :
    (l₁ ++ l₂).find? p =
      match l₁.find? p with
      | some a => some a
      | Option.none => l₂.find? p := by
  induction l₁ with
  | nil => simp
  | cons a l ih =>
    by_cases h : p a <;> simp [List.find?_cons, h, ih]

theorem find?_map_touch (rows : List Row) (url : Val) (touch : Row → Row)
    (h : ∀ r, (touch r).url = r.url) :
    ((rows.map fun r => if r.url = url then touch r else r).find?
        (fun r => r.url = url)) =
      (rows.find? (fun r => r.url = url)).map touch := by
  induction rows with
  | nil => simp
  | cons r rows ih =>
    by_cases hu : r.url = url
    · simp [List.find?_cons, hu, h]
    · simp [List.find?_cons, hu, ih]

theorem convVal_idem {x y : Val} (h : convVal x = some y) : convVal y = some y := by
  cases x with
  | none => simp [convVal] at h; simp [← h, convVal]
  | int n => simp [convVal] at h; simp [← h, convVal]
  | str s =>
    simp only [convVal, Option.map_eq_some'] at h
    obtain ⟨k, _, hk⟩ := h
    simp [← hk, convVal]

theorem convertPair_self (x : Val) :
    (convertPair x x).1 = (convertPair x x).2 := by
  unfold convertPair
  cases h : convVal x <;> simp [h]

theorem diffField_self (f : String) (x : Val) : diffField f x x = Option.none := by
  unfold diffField convPair
  by_cases h : f = "image_count"
  · simp [h, convertPair_self]
  · simp [h]

theorem convertPair_post (o n : Val) :
    (convertPair (convertPair o n).2 n).1 = (convertPair (convertPair o n).2 n).2 := by
  cases ho : convVal o with
  | none =>
    have h2 : (convertPair o n).2 = n := by simp [convertPair, ho]
    rw [h2]; exact convertPair_self n
  | some o2 =>
    cases hn : convVal n with
    | none =>
      have h2 : (convertPair o n).2 = n := by simp [convertPair, ho, hn]
      rw [h2]; exact convertPair_self n
    | some n2 =>
      have h2 : (convertPair o n).2 = n2 := by simp [convertPair, ho, hn]
      rw [h2]
      simp [convertPair, convVal_idem hn, hn]

/-- Running the field comparison again on the stored value produced by the
previous comparison detects no difference. -/
theorem diffField_post (f : String) (o n : Val) :
    diffField f (postField f o n) n = Option.none := by
  unfold postField
  cases hd : diffField f o n with
  | none => exact hd
  | some d =>
    unfold diffField convPair at hd ⊢
    by_cases h : f = "image_count"
    · simp only [h, if_true] at hd ⊢
      split at hd
      · exact absurd hd (by simp)
      · have : d.1 = (convertPair o n).2 := by
          rcases d with ⟨nv, ce⟩
          simp at hd
          simp [← hd.1]
        rw [this]
        simp [convertPair_post o n]
    · simp only [h, if_false] at hd ⊢
      split at hd
      · exact absurd hd (by simp)
      · have : d.1 = n := by
          rcases d with ⟨nv, ce⟩
          simp at hd
          simp [← hd.1]
        rw [this]
        simp

/-! Characterization of the field-loop output. -/

theorem get?_payOne_append (g : String) (d : Option (Val × Option ChangeEntry))
    (rest : Payload) (f : String) :
    Payload.get? (payOne (g, d) ++ rest) f =
      if g = f then
        match d with
        | some (nv, _) => some (.v nv)
        | Option.none => Payload.get? rest f
      else Payload.get? rest f := by
  cases d with
  | none => simp [payOne]
  | some nv =>
    by_cases h : g = f <;>
      simp [payOne, Payload.get?, List.find?_cons, h]

theorem get?_nil (f : String) : Payload.get? [] f = Option.none := rfl

theorem get?_raw_cons (cand : Record) (f : String) :
    Payload.get? [("raw_data", PVal.dict cand)] f =
      if "raw_data" = f then some (.dict cand) else Option.none := by
  by_cases h : "raw_data" = f <;> simp [Payload.get?, List.find?_cons, h]

/-- The update payload of the field loop, as the concatenation of the five
per-field contributions and the trailing raw_data entry. -/
theorem computeDiff_fst (row : Row) (cand : Record) :
    (computeDiff row cand).1 =
      payOne ("title", diffField "title" row.title (cand.getVal "title")) ++
      payOne ("price", diffField "price" row.price (cand.getVal "price")) ++
      payOne ("description", diffField "description" row.description (cand.getVal "description")) ++
      payOne ("image_count", diffField "image_count" row.image_count (cand.getVal "image_count")) ++
      payOne ("first_image_url", diffField "first_image_url" row.first_image_url (cand.getVal "first_image_url")) ++
      [("raw_data", PVal.dict cand)] := by
  simp [computeDiff, fields_to_check_for_update, Row.field]

theorem cd_get_title (row : Row) (cand : Record) :
    Payload.get? (computeDiff row cand).1 "title" =
      (diffField "title" row.title (cand.getVal "title")).map (fun d => PVal.v d.1) := by
  rw [computeDiff_fst]; simp only [List.append_assoc]
  cases hd : diffField "title" row.title (cand.getVal "title") <;>
    simp [get?_payOne_append, get?_raw_cons, get?_nil, hd]

theorem cd_get_price (row : Row) (cand : Record) :
    Payload.get? (computeDiff row cand).1 "price" =
      (diffField "price" row.price (cand.getVal "price")).map (fun d => PVal.v d.1) := by
  rw [computeDiff_fst]; simp only [List.append_assoc]
  cases hd : diffField "price" row.price (cand.getVal "price") <;>
    simp [get?_payOne_append, get?_raw_cons, get?_nil, hd]

theorem cd_get_description (row : Row) (cand : Record) :
    Payload.get? (computeDiff row cand).1 "description" =
      (diffField "description" row.description (cand.getVal "description")).map
        (fun d => PVal.v d.1) := by
  rw [computeDiff_fst]; simp only [List.append_assoc]
  cases hd : diffField "description" row.description (cand.getVal "description") <;>
    simp [get?_payOne_append, get?_raw_cons, get?_nil, hd]

theorem cd_get_image_count (row : Row) (cand : Record) :
    Payload.get? (computeDiff row cand).1 "image_count" =
      (diffField "image_count" row.image_count (cand.getVal "image_count")).map
        (fun d => PVal.v d.1) := by
  rw [computeDiff_fst]; simp only [List.append_assoc]
  cases hd : diffField "image_count" row.image_count (cand.getVal "image_count") <;>
    simp [get?_payOne_append, get?_raw_cons, get?_nil, hd]

theorem cd_get_first_image_url (row : Row) (cand : Record) :
    Payload.get? (computeDiff row cand).1 "first_image_url" =
      (diffField "first_image_url" row.first_image_url (cand.getVal "first_image_url")).map
        (fun d => PVal.v d.1) := by
  rw [computeDiff_fst]; simp only [List.append_assoc]
  cases hd : diffField "first_image_url" row.first_image_url (cand.getVal "first_image_url") <;>
    simp [get?_payOne_append, get?_raw_cons, get?_nil, hd]

theorem cd_get_site_name (row : Row) (cand : Record) :
    Payload.get? (computeDiff row cand).1 "site_name" = Option.none := by
  rw [computeDiff_fst]; simp only [List.append_assoc]
  cases h1 : diffField "title" row.title (cand.getVal "title") <;>
  cases h2 : diffField "price" row.price (cand.getVal "price") <;>
  cases h3 : diffField "description" row.description (cand.getVal "description") <;>
  cases h4 : diffField "image_count" row.image_count (cand.getVal "image_count") <;>
  cases h5 : diffField "first_image_url" row.first_image_url (cand.getVal "first_image_url") <;>
    simp [get?_payOne_append, get?_raw_cons, get?_nil, h1, h2, h3, h4, h5]

theorem cd_get_raw_data (row : Row) (cand : Record) :
    Payload.get? (computeDiff row cand).1 "raw_data" = some (.dict cand) := by
  rw [computeDiff_fst]; simp only [List.append_assoc]
  cases h1 : diffField "title" row.title (cand.getVal "title") <;>
  cases h2 : diffField "price" row.price (cand.getVal "price") <;>
  cases h3 : diffField "description" row.description (cand.getVal "description") <;>
  cases h4 : diffField "image_count" row.image_count (cand.getVal "image_count") <;>
  cases h5 : diffField "first_image_url" row.first_image_url (cand.getVal "first_image_url") <;>
    simp [get?_payOne_append, get?_raw_cons, get?_nil, h1, h2, h3, h4, h5]

theorem bind_arm_map (d : Option (Val × Option ChangeEntry)) :
    (match d.map (fun x => PVal.v x.1) with
     | some (.dict _) => false
     | _ => true) = true := by
  cases d <;> rfl

/-- The update payload of the field loop always binds: every
dedicated-column value in it is a scalar. -/
theorem computeDiff_bindOk (row : Row) (cand : Record) :
    (computeDiff row cand).1.bindOk = true := by
  simp only [Payload.bindOk, direct_column_fields, List.all_cons, List.all_nil,
    cd_get_title, cd_get_price, cd_get_description, cd_get_image_count,
    cd_get_first_image_url, cd_get_site_name, bind_arm_map]
  rfl

theorem computeDiff_snd (row : Row) (cand : Record) :
    (computeDiff row cand).2 =
      chgOne ("title", diffField "title" row.title (cand.getVal "title")) ++
      chgOne ("price", diffField "price" row.price (cand.getVal "price")) ++
      chgOne ("description", diffField "description" row.description (cand.getVal "description")) ++
      chgOne ("image_count", diffField "image_count" row.image_count (cand.getVal "image_count")) ++
      chgOne ("first_image_url", diffField "first_image_url" row.first_image_url (cand.getVal "first_image_url")) := by
  simp [computeDiff, fields_to_check_for_update, Row.field]

/-! Behaviour of the store operations on the looked-up row. -/

theorem get_update_listing (db : DB) (url : Val) (upd : Payload) (now : Nat)
    (h : upd.bindOk = true) :
    (db.update_listing url upd now).get_listing_by_url url =
      (db.get_listing_by_url url).map (fun r =>
        let r2 := applyDirect r upd
        { r2 with raw_data := upd, last_updated := now, last_checked := now }) := by
  unfold DB.update_listing DB.get_listing_by_url
  rw [if_pos h]
  exact find?_map_touch db.rows url _ (fun r => rfl)

theorem get_update_last_checked (db : DB) (url : Val) (now : Nat) :
    (db.update_last_checked url now).get_listing_by_url url =
      (db.get_listing_by_url url).map (fun r => { r with last_checked := now }) := by
  unfold DB.update_last_checked DB.get_listing_by_url
  exact find?_map_touch db.rows url _ (fun r => rfl)

/-- add_listing with db_insert_data reduces to a guarded append of the
fresh row. -/
theorem add_insertData_eq (db : DB) (url : Val) (site : String) (cand : Record)
    (now : Nat) :
    db.add_listing (insertData url site cand) now =
      if (db.get_listing_by_url url).isSome then db
      else ⟨db.rows ++ [insertRow url site cand now]⟩ := rfl

theorem get_add_insertData (db : DB) (url : Val) (site : String) (cand : Record)
    (now : Nat) (h : db.get_listing_by_url url = Option.none) :
    (db.add_listing (insertData url site cand) now).get_listing_by_url url =
      some (insertRow url site cand now) := by
  rw [add_insertData_eq, h]
  simp only [Option.isSome_none, Bool.false_eq_true, if_false]
  unfold DB.get_listing_by_url at h ⊢
  rw [find?_append', h]
  simp [insertRow]

/-- After reconciling a candidate for an unknown url, the row stored for
the url is the freshly inserted one. -/
theorem processCandidate_row_new (site : String) (url : Val) (cand : Record)
    (db : DB) (nm : NMState) (now : Nat) (ok : Bool)
    (h : db.get_listing_by_url url = Option.none) :
    (processCandidate site url cand db nm now ok).db.get_listing_by_url url =
      some (insertRow url site cand now) := by
  unfold processCandidate
  rw [h]
  exact get_add_insertData db url site cand now h

/-- After reconciling a candidate for a known url, the row stored for the
url is the updated one. -/
theorem processCandidate_row_known (site : String) (url : Val) (cand : Record)
    (db : DB) (nm : NMState) (now : Nat) (ok : Bool) (row : Row)
    (h : db.get_listing_by_url url = some row) :
    (processCandidate site url cand db nm now ok).db.get_listing_by_url url =
      some (updatedRow row cand now) := by
  unfold processCandidate
  rw [h]
  simp only
  rw [get_update_listing db url (computeDiff row cand).1 now (computeDiff_bindOk row cand), h]
  rfl

/-! Dedicated-column values of the stored rows. -/

theorem insertRow_field (url : Val) (site : String) (cand : Record) (now : Nat)
    (f : String) (hf : f ∈ fields_to_check_for_update) :
    (insertRow url site cand now).field f = cand.getVal f := by
  simp only [fields_to_check_for_update, List.mem_cons, List.mem_singleton,
    List.not_mem_nil, or_false] at hf
  rcases hf with rfl | rfl | rfl | rfl | rfl <;> rfl

theorem updatedRow_field (row : Row) (cand : Record) (now : Nat)
    (f : String) (hf : f ∈ fields_to_check_for_update) :
    (updatedRow row cand now).field f = postField f (row.field f) (cand.getVal f) := by
  simp only [fields_to_check_for_update, List.mem_cons, List.mem_singleton,
    List.not_mem_nil, or_false] at hf
  rcases hf with rfl | rfl | rfl | rfl | rfl <;>
  · simp only [updatedRow, applyDirect, Row.field, colUpd, postField,
      cd_get_title, cd_get_price, cd_get_description, cd_get_image_count,
      cd_get_first_image_url]
    cases hd : diffField _ _ _ <;> simp [hd]

theorem updatedRow_site_name (row : Row) (cand : Record) (now : Nat) :
    (updatedRow row cand now).site_name = row.site_name := by
  simp [updatedRow, applyDirect, colUpd, cd_get_site_name]

theorem updatedRow_stable (row : Row) (cand : Record) (now : Nat)
    (f : String) (hf : f ∈ fields_to_check_for_update) :
    diffField f ((updatedRow row cand now).field f) (cand.getVal f) = Option.none := by
  rw [updatedRow_field row cand now f hf]
  exact diffField_post f (row.field f) (cand.getVal f)

theorem insertRow_stable (url : Val) (site : String) (cand : Record) (now : Nat)
    (f : String) (hf : f ∈ fields_to_check_for_update) :
    diffField f ((insertRow url site cand now).field f) (cand.getVal f) = Option.none := by
  rw [insertRow_field url site cand now f hf]
  exact diffField_self f (cand.getVal f)

/-- When no checked field differs, the field loop produces no change
tuples. -/
theorem computeDiff_snd_nil (row : Row) (cand : Record)
    (h : ∀ f ∈ fields_to_check_for_update,
      diffField f (row.field f) (cand.getVal f) = Option.none) :
    (computeDiff row cand).2 = [] := by
  have h1 := h "title" (by simp [fields_to_check_for_update])
  have h2 := h "price" (by simp [fields_to_check_for_update])
  have h3 := h "description" (by simp [fields_to_check_for_update])
  have h4 := h "image_count" (by simp [fields_to_check_for_update])
  have h5 := h "first_image_url" (by simp [fields_to_check_for_update])
  simp only [Row.field] at h1 h2 h3 h4 h5
  rw [computeDiff_snd, h1, h2, h3, h4, h5]
  rfl

/-- When no checked field differs, the update payload is just the raw_data
entry. -/
theorem computeDiff_fst_nil (row : Row) (cand : Record)
    (h : ∀ f ∈ fields_to_check_for_update,
      diffField f (row.field f) (cand.getVal f) = Option.none) :
    (computeDiff row cand).1 = [("raw_data", PVal.dict cand)] := by
  have h1 := h "title" (by simp [fields_to_check_for_update])
  have h2 := h "price" (by simp [fields_to_check_for_update])
  have h3 := h "description" (by simp [fields_to_check_for_update])
  have h4 := h "image_count" (by simp [fields_to_check_for_update])
  have h5 := h "first_image_url" (by simp [fields_to_check_for_update])
  simp only [Row.field] at h1 h2 h3 h4 h5
  rw [computeDiff_fst, h1, h2, h3, h4, h5]
  rfl

/-! Characterization of the produced change tuples. -/

theorem diffField_eq_none (g : String) (o n : Val)
    (hne : (convPair g o n).1 = (convPair g o n).2) :
    diffField g o n = Option.none := by
  unfold diffField; simp [hne]

theorem diffField_eq_tracked (g : String) (o n : Val)
    (hne : (convPair g o n).1 ≠ (convPair g o n).2)
    (ht : g ∈ TRACKED_FIELDS_FOR_NOTIFICATION) :
    diffField g o n = some ((convPair g o n).2,
      some ⟨g, (pyStr (convPair g o n).1).take 50, (pyStr (convPair g o n).2).take 50⟩) := by
  unfold diffField; simp [hne, ht]

theorem diffField_eq_untracked (g : String) (o n : Val)
    (hne : (convPair g o n).1 ≠ (convPair g o n).2)
    (ht : g ∉ TRACKED_FIELDS_FOR_NOTIFICATION) :
    diffField g o n = some ((convPair g o n).2, Option.none) := by
  unfold diffField; simp [hne, ht]

theorem countP_chgOne (g f : String) (o n : Val) :
    (chgOne (g, diffField g o n)).countP (fun e => e.field = f) =
      if g = f ∧ g ∈ TRACKED_FIELDS_FOR_NOTIFICATION ∧
          (convPair g o n).1 ≠ (convPair g o n).2 then 1 else 0 := by
  by_cases hne : (convPair g o n).1 = (convPair g o n).2
  · rw [diffField_eq_none g o n hne]
    simp [chgOne, hne]
  · by_cases ht : g ∈ TRACKED_FIELDS_FOR_NOTIFICATION
    · rw [diffField_eq_tracked g o n hne ht]
      by_cases hgf : g = f
      · subst hgf
        simp [chgOne, ht, hne, List.countP_cons]
      · simp [chgOne, ht, hne, hgf, List.countP_cons]
    · rw [diffField_eq_untracked g o n hne ht]
      simp [chgOne, ht, hne]

theorem mem_chgOne_diff (g : String) (o n : Val) (e : ChangeEntry)
    (h : e ∈ chgOne (g, diffField g o n)) :
    g ∈ TRACKED_FIELDS_FOR_NOTIFICATION ∧
      (convPair g o n).1 ≠ (convPair g o n).2 ∧
      e = ⟨g, (pyStr (convPair g o n).1).take 50, (pyStr (convPair g o n).2).take 50⟩ := by
  by_cases hne : (convPair g o n).1 = (convPair g o n).2
  · rw [diffField_eq_none g o n hne] at h
    simp [chgOne] at h
  · by_cases ht : g ∈ TRACKED_FIELDS_FOR_NOTIFICATION
    · rw [diffField_eq_tracked g o n hne ht] at h
      simp only [chgOne, List.mem_singleton] at h
      exact ⟨ht, hne, h⟩
    · rw [diffField_eq_untracked g o n hne ht] at h
      simp [chgOne] at h

/-- Every change tuple comes from one of the five checked fields, is for a
tracked field, is produced because the compared pair differs, and records
the truncated stringifications of the compared pair. -/
theorem mem_changes (row : Row) (cand : Record) (e : ChangeEntry)
    (h : e ∈ (computeDiff row cand).2) :
    ∃ f, f ∈ fields_to_check_for_update ∧
      f ∈ TRACKED_FIELDS_FOR_NOTIFICATION ∧ e.field = f ∧
      (convPair f (row.field f) (cand.getVal f)).1 ≠
        (convPair f (row.field f) (cand.getVal f)).2 ∧
      e = ⟨f, (pyStr (convPair f (row.field f) (cand.getVal f)).1).take 50,
        (pyStr (convPair f (row.field f) (cand.getVal f)).2).take 50⟩ := by
  rw [computeDiff_snd] at h
  simp only [List.mem_append] at h
  rcases h with (((h | h) | h) | h) | h
  · refine ⟨"title", by simp [fields_to_check_for_update], ?_⟩
    have := mem_chgOne_diff _ _ _ _ h
    simp only [Row.field]
    exact ⟨this.1, by rw [this.2.2], this.2.1, this.2.2⟩
  · refine ⟨"price", by simp [fields_to_check_for_update], ?_⟩
    have := mem_chgOne_diff _ _ _ _ h
    simp only [Row.field]
    exact ⟨this.1, by rw [this.2.2], this.2.1, this.2.2⟩
  · refine ⟨"description", by simp [fields_to_check_for_update], ?_⟩
    have := mem_chgOne_diff _ _ _ _ h
    simp only [Row.field]
    exact ⟨this.1, by rw [this.2.2], this.2.1, this.2.2⟩
  · refine ⟨"image_count", by simp [fields_to_check_for_update], ?_⟩
    have := mem_chgOne_diff _ _ _ _ h
    simp only [Row.field]
    exact ⟨this.1, by rw [this.2.2], this.2.1, this.2.2⟩
  · refine ⟨"first_image_url", by simp [fields_to_check_for_update], ?_⟩
    have := mem_chgOne_diff _ _ _ _ h
    simp only [Row.field]
    exact ⟨this.1, by rw [this.2.2], this.2.1, this.2.2⟩

/-- Exactly-one counting for the five checked fields. -/
theorem changes_countP (row : Row) (cand : Record) (f : String)
    (hf : f ∈ fields_to_check_for_update) :
    (computeDiff row cand).2.countP (fun e => e.field = f) =
      if f ∈ TRACKED_FIELDS_FOR_NOTIFICATION ∧
          (convPair f (row.field f) (cand.getVal f)).1 ≠
            (convPair f (row.field f) (cand.getVal f)).2 then 1 else 0 := by
  rw [computeDiff_snd]
  simp only [List.countP_append, countP_chgOne]
  simp only [fields_to_check_for_update, List.mem_cons, List.mem_singleton,
    List.not_mem_nil, or_false] at hf
  rcases hf with rfl | rfl | rfl | rfl | rfl <;>
    simp [Row.field, TRACKED_FIELDS_FOR_NOTIFICATION]

/-! Notification manager lemmas. -/

/-- The successful-send detector matches the state update. -/
theorem process_queue_last (st : NMState) (now : Nat) (ok : Bool) :
    (st.process_queue now ok).last_notification_time =
      if st.drainSends now ok then some now else st.last_notification_time := by
  unfold NMState.process_queue NMState.drainSends
  cases hq : st.notification_queue with
  | nil => simp
  | cons item rest =>
    by_cases hg : (match st.last_notification_time with
      | some t => decide (now - t < MIN_NOTIFICATION_INTERVAL)
      | Option.none => false)
    · simp [hg]
    · by_cases hp : item.payloadTruthy
      · by_cases hk : ok <;> simp [hg, hp, hk]
      · simp [hg, hp]

theorem send_notification_last (st : NMState) (now : Nat) (msg : Option String)
    (embed : Option Embed) (ok : Bool) :
    (st.send_notification now msg embed ok).last_notification_time =
      if st.sendHappens now msg embed ok then some now
      else st.last_notification_time := by
  unfold NMState.send_notification NMState.sendHappens
  by_cases hw : webhookTruthy st.webhook_url
  · simp only [hw, not_true, if_false, Bool.true_and]
    exact process_queue_last _ now ok
  · simp [hw]

/-- Along any run from a freshly initialized manager, the recorded last
send time heads a chain of dispatch times spaced by at least the minimum
interval. -/
theorem chain_runSentTimes (evs : List (Nat × NMEvent)) :
    ∀ st : NMState,
      List.Chain' (fun a b => a + MIN_NOTIFICATION_INTERVAL ≤ b)
        ((match st.last_notification_time with
          | some t => [t]
          | Option.none => []) ++ runSentTimes st evs) := by
  induction evs with
  | nil =>
    intro st
    cases st.last_notification_time <;> simp [runSentTimes]
  | cons ev rest ih =>
    intro st
    rcases ev with ⟨now, me⟩
    rcases me with ⟨m, e, ok⟩
    by_cases hs : st.sendHappens now m e ok
    · have hlast : (st.send_notification now m e ok).last_notification_time = some now := by
        rw [send_notification_last]; simp [hs]
      have tail := ih (st.send_notification now m e ok)
      rw [hlast] at tail
      cases hl : st.last_notification_time with
      | none => simpa [runSentTimes, hs, hl] using tail
      | some t =>
        have hle : t + MIN_NOTIFICATION_INTERVAL ≤ now := by
          unfold NMState.sendHappens NMState.drainSends at hs
          rw [hl] at hs
          cases hq : st.notification_queue with
          | nil =>
            rw [hq] at hs
            simp only [List.nil_append, Bool.and_eq_true, Bool.not_eq_true',
              decide_eq_false_iff_not, Nat.not_lt] at hs
            have := hs.2.1.1
            have hpos : 0 < MIN_NOTIFICATION_INTERVAL := by
              unfold MIN_NOTIFICATION_INTERVAL; omega
            omega
          | cons i r =>
            rw [hq] at hs
            simp only [List.cons_append, Bool.and_eq_true, Bool.not_eq_true',
              decide_eq_false_iff_not, Nat.not_lt] at hs
            have := hs.2.1.1
            have hpos : 0 < MIN_NOTIFICATION_INTERVAL := by
              unfold MIN_NOTIFICATION_INTERVAL; omega
            omega
        simp only [runSentTimes, hs, if_true, hl, List.singleton_append,
          List.cons_append, List.nil_append] at tail ⊢
        rw [List.chain'_cons]
        exact ⟨hle, tail⟩
    · have hlast : (st.send_notification now m e ok).last_notification_time =
          st.last_notification_time := by
        rw [send_notification_last]; simp [hs]
      have tail := ih (st.send_notification now m e ok)
      rw [hlast] at tail
      simpa [runSentTimes, hs] using tail


/-- The crawl loop visits an initial segment of the page numbers: fuel
pages remain, and the visited pages starting at `page` form a contiguous
range whose length is bounded by the remaining fuel; every visited page
had content, every visited page except possibly the last reported
has_next_page, and an early stop is explained by a contentless next page
or a false has_next_page on the last visited page. -/

theorem scrapeGo_spec (site : String) (ex : Extractor) (ok : Bool) :
    ∀ (fuel page : Nat) (st : ScrapeState),
      ∃ k, k ≤ fuel ∧
        (scrapeGo site ex ok fuel page st).2.2 = List.range' page k ∧
        (∀ i, i < k → pageGood ex (page + i) = true) ∧
        (∀ i, i + 1 < k → pageHasNext ex (page + i) = true) ∧
        (k < fuel →
          pageGood ex (page + k) = false ∨
            (0 < k ∧ pageHasNext ex (page + k - 1) = false)) := by
  intro fuel
  induction fuel with
  | zero =>
    intro page st
    exact ⟨0, Nat.le_refl 0, by simp [scrapeGo], by omega, by omega, by omega⟩
  | succ fuel ih =>
    intro page st
    by_cases hh : htmlTruthy (ex.fetch_listings_page page) = true
    · by_cases he : (ex.parse_listings ((ex.fetch_listings_page page).getD "")).1.isEmpty = true
      · refine ⟨0, by omega, ?_, by omega, by omega, ?_⟩
        · simp [scrapeGo, hh, he]
        · intro _
          left
          simp [pageGood, hh, he]
      · by_cases hn : (ex.parse_listings ((ex.fetch_listings_page page).getD "")).2 = true
        · obtain ⟨k, hk, hres, hgood, hnext, hstop⟩ :=
            ih (page + 1)
              (processSummaries site ex ok st
                (ex.parse_listings ((ex.fetch_listings_page page).getD "")).1).1
          refine ⟨k + 1, by omega, ?_, ?_, ?_, ?_⟩
          · simp only [scrapeGo, hh, he, hn]
            simp [hh, he, hn, hres]
            rfl
          · intro i hi
            cases i with
            | zero => simp [pageGood, hh, he]
            | succ j =>
              have := hgood j (by omega)
              rw [show page + (j + 1) = page + 1 + j by omega]
              exact this
          · intro i hi
            cases i with
            | zero => simpa [pageHasNext] using hn
            | succ j =>
              have := hnext j (by omega)
              rw [show page + (j + 1) = page + 1 + j by omega]
              exact this
          · intro hlt
            rcases hstop (by omega) with h | h
            · left
              rw [show page + (k + 1) = page + 1 + k by omega]
              exact h
            · right
              refine ⟨by omega, ?_⟩
              rw [show page + (k + 1) - 1 = page + 1 + k - 1 by omega]
              exact h.2
        · refine ⟨1, by omega, ?_, ?_, by omega, ?_⟩
          · simp [scrapeGo, hh, he, hn]
          · intro i hi
            have : i = 0 := by omega
            subst this
            simp [pageGood, hh, he]
          · intro _
            right
            refine ⟨by omega, ?_⟩
            simp only [Nat.add_sub_cancel]
            simpa [pageHasNext] using hn
    · refine ⟨0, by omega, ?_, by omega, by omega, ?_⟩
      · simp [scrapeGo, hh]
      · intro _
        left
        simp [pageGood, hh]

theorem postField_none (f : String) (o n : Val)
    (h : diffField f o n = Option.none) : postField f o n = o := by
  unfold postField; rw [h]

theorem forall₂_map_self {α β : Type} (l : List α) (g : α → β)
    (P : α → β → Prop) (h : ∀ x, P x (g x)) : List.Forall₂ P l (l.map g) := by
  induction l with
  | nil => simp
  | cons a t ih => exact List.Forall₂.cons (h a) ih

theorem processCandidate_changes (site : String) (url : Val) (cand : Record)
    (db : DB) (nm : NMState) (now : Nat) (ok : Bool) (row : Row)
    (hget : db.get_listing_by_url url = some row) :
    (processCandidate site url cand db nm now ok).changes = (computeDiff row cand).2 := by
  unfold processCandidate; rw [hget]

theorem processCandidate_created_known (site : String) (url : Val) (cand : Record)
    (db : DB) (nm : NMState) (now : Nat) (ok : Bool) (row : Row)
    (hget : db.get_listing_by_url url = some row) :
    (processCandidate site url cand db nm now ok).created = false := by
  unfold processCandidate; rw [hget]

/-- After any reconciliation, a row for the url is stored, and every
checked field of it compares equal (under the field loop comparison)
against the candidate it was reconciled from. -/
theorem processCandidate_stable (site : String) (url : Val) (cand : Record)
    (db : DB) (nm : NMState) (now : Nat) (ok : Bool) :
    ∃ row1, (processCandidate site url cand db nm now ok).db.get_listing_by_url url = some row1 ∧
      (∀ f ∈ fields_to_check_for_update,
        diffField f (row1.field f) (cand.getVal f) = Option.none) := by
  cases hget : db.get_listing_by_url url with
  | none =>
    exact ⟨insertRow url site cand now,
      processCandidate_row_new site url cand db nm now ok hget,
      fun f hf => insertRow_stable url site cand now f hf⟩
  | some row =>
    exact ⟨updatedRow row cand now,
      processCandidate_row_known site url cand db nm now ok row hget,
      fun f hf => updatedRow_stable row cand now f hf⟩

theorem keepChange_eq_false (ig : Bool) (e : ChangeEntry) (h : e.old = e.new) :
    keepChange ig e = false := by
  unfold keepChange
  rw [h]
  simp

/-! Claim theorems. -/

/-- C1.  Reconciling a candidate whose url is already stored: each checked
dedicated field whose stored value differs from the candidate value (under
the field loop comparison, which converts image_count through int() first)
produces exactly one ChangeEntry when it is tracked and none when it is
not (title, first_image_url are not tracked), and the raw_data column is
nonetheless rewritten with the update payload built from the candidate,
which carries the full candidate under its raw_data key. -/
theorem claim_C1 (site : String) (url : Val) (cand : Record) (db : DB)
    (nm : NMState) (now : Nat) (ok : Bool) (row : Row) (f : String)
    (hf : f ∈ fields_to_check_for_update)
    (hget : db.get_listing_by_url url = some row) :
    ((processCandidate site url cand db nm now ok).changes.countP
        (fun e => e.field = f) =
      if f ∈ TRACKED_FIELDS_FOR_NOTIFICATION ∧
          (convPair f (row.field f) (cand.getVal f)).1 ≠
            (convPair f (row.field f) (cand.getVal f)).2 then 1 else 0) ∧
    ∃ row2, (processCandidate site url cand db nm now ok).db.get_listing_by_url url =
        some row2 ∧
      row2.raw_data = (computeDiff row cand).1 ∧
      Payload.get? row2.raw_data "raw_data" = some (.dict cand) := by
  constructor
  · rw [processCandidate_changes site url cand db nm now ok row hget]
    exact changes_countP row cand f hf
  · refine ⟨updatedRow row cand now,
      processCandidate_row_known site url cand db nm now ok row hget, rfl, ?_⟩
    exact cd_get_raw_data row cand

/-- C1 witness: a stored row whose price and title both differ from the
candidate produces exactly one price entry, no title entry, and the
rewritten raw_data holds the candidate. -/
theorem claim_C1_witness :
    ((processCandidate "S" (.str "u2") [("price", .str "9"), ("title", .str "T2")]
        ⟨[exRowN]⟩ exNM 1 true).changes.countP (fun e => e.field = "price") = 1) ∧
    ((processCandidate "S" (.str "u2") [("price", .str "9"), ("title", .str "T2")]
        ⟨[exRowN]⟩ exNM 1 true).changes.countP (fun e => e.field = "title") = 0) := by
  constructor
  · have h := (claim_C1 "S" (.str "u2") [("price", .str "9"), ("title", .str "T2")]
      ⟨[exRowN]⟩ exNM 1 true exRowN "price" (by decide) (by decide)).1
    rw [h]; decide
  · have h := (claim_C1 "S" (.str "u2") [("price", .str "9"), ("title", .str "T2")]
      ⟨[exRowN]⟩ exNM 1 true exRowN "title" (by decide) (by decide)).1
    rw [h]; decide

/-- C6.  A drain inside the minimum interval after the last successful
send changes nothing (no pop, head stays queued), and along any run of
notify calls from a fresh manager the successful dispatch timestamps are
pairwise at least MIN_NOTIFICATION_INTERVAL apart. -/
theorem claim_C6 :
    (∀ (st : NMState) (now t : Nat) (ok : Bool),
      st.last_notification_time = some t →
      now - t < MIN_NOTIFICATION_INTERVAL →
      st.process_queue now ok = st) ∧
    (∀ (url : Option String) (evs : List (Nat × NMEvent)),
      List.Pairwise (fun a b => a + MIN_NOTIFICATION_INTERVAL ≤ b)
        (runSentTimes (NMState.init url) evs)) := by
  constructor
  · intro st now t ok hlast hlt
    unfold NMState.process_queue
    cases hq : st.notification_queue with
    | nil => rfl
    | cons item rest => simp [hlast, hlt]
  · intro url evs
    have h := chain_runSentTimes evs (NMState.init url)
    simp only [NMState.init, List.nil_append] at h
    haveI : IsTrans Nat (fun a b => a + MIN_NOTIFICATION_INTERVAL ≤ b) :=
      ⟨fun a b c h1 h2 => by omega⟩
    exact List.chain'_iff_pairwise.mp h

/-- C6 witness: a concrete blocked drain is a no-op, and a concrete
two-notify run has spaced dispatch times. -/
theorem claim_C6_witness :
    (NMState.process_queue
        ⟨some "https://discord.com/api/webhooks/x", false, some 5,
          [⟨some "m", Option.none, 5⟩]⟩ 6 true =
      ⟨some "https://discord.com/api/webhooks/x", false, some 5,
        [⟨some "m", Option.none, 5⟩]⟩) ∧
    List.Pairwise (fun a b => a + MIN_NOTIFICATION_INTERVAL ≤ b)
      (runSentTimes (NMState.init (some "https://discord.com/api/webhooks/x"))
        [(1, .notify (some "a") Option.none true),
         (2, .notify (some "b") Option.none true)]) := by
  constructor
  · exact claim_C6.1 _ 6 5 true rfl (by decide)
  · exact claim_C6.2 (some "https://discord.com/api/webhooks/x") _

/-- C7.  When delivery of the head item fails, the drain leaves the state
exactly as it was: the item is back at the head, the rest of the queue is
in order, and last_notification_time is unchanged; a later ready drain
with a recovered sink dispatches that same item. -/
theorem claim_C7 (st : NMState) (item : QItem) (rest : List QItem) (now now2 : Nat)
    (hq : st.notification_queue = item :: rest)
    (hp : item.payloadTruthy = true)
    (hready : ∀ t, st.last_notification_time = some t →
      MIN_NOTIFICATION_INTERVAL ≤ now - t)
    (hready2 : ∀ t, st.last_notification_time = some t →
      MIN_NOTIFICATION_INTERVAL ≤ now2 - t) :
    st.process_queue now false = st ∧
    (st.process_queue now false).process_queue now2 true =
      { st with notification_queue := rest, last_notification_time := some now2 } := by
  have hguard : ∀ (m : Nat), (∀ t, st.last_notification_time = some t →
      MIN_NOTIFICATION_INTERVAL ≤ m - t) →
      (match st.last_notification_time with
        | some t => decide (m - t < MIN_NOTIFICATION_INTERVAL)
        | Option.none => false) = false := by
    intro m hm
    cases hl : st.last_notification_time with
    | none => rfl
    | some t =>
      have := hm t hl
      simp only [decide_eq_false_iff_not, Nat.not_lt]
      exact this
  have hfail : st.process_queue now false = st := by
    unfold NMState.process_queue
    rw [hq]
    simp only [hguard now hready, Bool.false_eq_true, if_false, hp, not_true,
      Bool.true_eq_false]
    rw [← hq]
  refine ⟨hfail, ?_⟩
  rw [hfail]
  unfold NMState.process_queue
  rw [hq]
  simp only [hguard now2 hready2, Bool.false_eq_true, if_false, hp, not_true,
    Bool.true_eq_false, if_true]

/-- C7 witness: a concrete failed dispatch leaves the state unchanged and
the item is dispatched by the next ready drain. -/
theorem claim_C7_witness :
    (NMState.process_queue
        ⟨some "https://discord.com/api/webhooks/x", false, Option.none,
          [⟨some "m", Option.none, 0⟩, ⟨some "m2", Option.none, 0⟩]⟩ 1 false =
      ⟨some "https://discord.com/api/webhooks/x", false, Option.none,
        [⟨some "m", Option.none, 0⟩, ⟨some "m2", Option.none, 0⟩]⟩) ∧
    (NMState.process_queue
        (NMState.process_queue
          ⟨some "https://discord.com/api/webhooks/x", false, Option.none,
            [⟨some "m", Option.none, 0⟩, ⟨some "m2", Option.none, 0⟩]⟩ 1 false) 2 true =
      ⟨some "https://discord.com/api/webhooks/x", false, some 2,
        [⟨some "m2", Option.none, 0⟩]⟩) :=
  claim_C7 _ ⟨some "m", Option.none, 0⟩ [⟨some "m2", Option.none, 0⟩] 1 2 rfl
    (by decide) (fun t h => by cases h) (fun t h => by cases h)

/-- C8.  With no webhook configured, send_notification returns before
enqueuing: the whole manager state (queue and last send time included) is
unchanged and no dispatch happens. -/
theorem claim_C8 (st : NMState) (now : Nat) (msg : Option String)
    (embed : Option Embed) (ok : Bool)
    (h : webhookTruthy st.webhook_url = false) :
    st.send_notification now msg embed ok = st ∧
      st.sendHappens now msg embed ok = false := by
  constructor
  · unfold NMState.send_notification
    simp [h]
  · unfold NMState.sendHappens
    simp [h]

/-- C8 witness: the disabled manager drops a concrete item entirely. -/
theorem claim_C8_witness :
    exNM.send_notification 7 (some "m") Option.none true = exNM ∧
      exNM.sendHappens 7 (some "m") Option.none true = false :=
  claim_C8 exNM 7 (some "m") Option.none true (by decide)

/-- C2 counterexample: reconciling the same candidate twice from an empty
store yields created = false and changes = [] on the second run, but the
second run moves last_updated from 1 to 2 — the claim that last_updated
remains unchanged is false on the code, which always rewrites it. -/
theorem claim_C2_counterexample :
    (processCandidate "S" (.str "u") exCand
        (processCandidate "S" (.str "u") exCand ⟨[]⟩ exNM 1 true).db exNM 2 true).created
        = false ∧
    (processCandidate "S" (.str "u") exCand
        (processCandidate "S" (.str "u") exCand ⟨[]⟩ exNM 1 true).db exNM 2 true).changes
        = [] ∧
    ((processCandidate "S" (.str "u") exCand ⟨[]⟩ exNM 1 true).db.get_listing_by_url
        (.str "u")).map Row.last_updated = some 1 ∧
    ((processCandidate "S" (.str "u") exCand
        (processCandidate "S" (.str "u") exCand ⟨[]⟩ exNM 1 true).db exNM 2 true).db.get_listing_by_url
        (.str "u")).map Row.last_updated = some 2 := by
  decide

/-- C2 amended: reconciling the same candidate twice yields
created = false and changes = [] on the second run, the dedicated columns
and first_seen are untouched, but the second run advances both
last_checked and last_updated to its now (the code always bumps both and
rewrites raw_data). -/
theorem claim_C2_amended (site : String) (url : Val) (cand : Record) (db : DB)
    (nm nm2 : NMState) (now1 now2 : Nat) (ok1 ok2 : Bool) :
    (processCandidate site url cand
        (processCandidate site url cand db nm now1 ok1).db nm2 now2 ok2).created = false ∧
    (processCandidate site url cand
        (processCandidate site url cand db nm now1 ok1).db nm2 now2 ok2).changes = [] ∧
    (∀ row1 row2,
      (processCandidate site url cand db nm now1 ok1).db.get_listing_by_url url = some row1 →
      (processCandidate site url cand
        (processCandidate site url cand db nm now1 ok1).db nm2 now2 ok2).db.get_listing_by_url
          url = some row2 →
      row2.last_checked = now2 ∧ row2.last_updated = now2 ∧
      row2.title = row1.title ∧ row2.price = row1.price ∧
      row2.description = row1.description ∧ row2.image_count = row1.image_count ∧
      row2.first_image_url = row1.first_image_url ∧ row2.site_name = row1.site_name ∧
      row2.url = row1.url ∧ row2.first_seen = row1.first_seen) := by
  obtain ⟨row1, h1, hst⟩ := processCandidate_stable site url cand db nm now1 ok1
  refine ⟨processCandidate_created_known _ _ _ _ _ _ _ row1 h1, ?_, ?_⟩
  · rw [processCandidate_changes _ _ _ _ _ _ _ row1 h1]
    exact computeDiff_snd_nil row1 cand hst
  · intro r1 r2 hr1 hr2
    rw [h1] at hr1
    have hr1e : row1 = r1 := by injection hr1
    subst hr1e
    have h2 := processCandidate_row_known site url cand _ nm2 now2 ok2 row1 h1
    rw [h2] at hr2
    have hr2e : updatedRow row1 cand now2 = r2 := by injection hr2
    subst hr2e
    refine ⟨rfl, rfl, ?_, ?_, ?_, ?_, ?_, updatedRow_site_name row1 cand now2, rfl, rfl⟩
    · have ht := updatedRow_field row1 cand now2 "title"
        (by simp [fields_to_check_for_update])
      rw [postField_none _ _ _ (hst "title" (by simp [fields_to_check_for_update]))] at ht
      exact ht
    · have ht := updatedRow_field row1 cand now2 "price"
        (by simp [fields_to_check_for_update])
      rw [postField_none _ _ _ (hst "price" (by simp [fields_to_check_for_update]))] at ht
      exact ht
    · have ht := updatedRow_field row1 cand now2 "description"
        (by simp [fields_to_check_for_update])
      rw [postField_none _ _ _
        (hst "description" (by simp [fields_to_check_for_update]))] at ht
      exact ht
    · have ht := updatedRow_field row1 cand now2 "image_count"
        (by simp [fields_to_check_for_update])
      rw [postField_none _ _ _
        (hst "image_count" (by simp [fields_to_check_for_update]))] at ht
      exact ht
    · have ht := updatedRow_field row1 cand now2 "first_image_url"
        (by simp [fields_to_check_for_update])
      rw [postField_none _ _ _
        (hst "first_image_url" (by simp [fields_to_check_for_update]))] at ht
      exact ht

/-- C2 amended witness. -/
theorem claim_C2_amended_witness :
    (processCandidate "S" (.str "u") exCand
        (processCandidate "S" (.str "u") exCand ⟨[]⟩ exNM 1 true).db exNM 2 true).created
        = false ∧
    (processCandidate "S" (.str "u") exCand
        (processCandidate "S" (.str "u") exCand ⟨[]⟩ exNM 1 true).db exNM 2 true).changes
        = [] ∧
    ((updatedRow (insertRow (.str "u") "S" exCand 1) exCand 2).last_checked = 2 ∧
     (updatedRow (insertRow (.str "u") "S" exCand 1) exCand 2).last_updated = 2 ∧
     (updatedRow (insertRow (.str "u") "S" exCand 1) exCand 2).title =
       (insertRow (.str "u") "S" exCand 1).title ∧
     (updatedRow (insertRow (.str "u") "S" exCand 1) exCand 2).price =
       (insertRow (.str "u") "S" exCand 1).price ∧
     (updatedRow (insertRow (.str "u") "S" exCand 1) exCand 2).description =
       (insertRow (.str "u") "S" exCand 1).description ∧
     (updatedRow (insertRow (.str "u") "S" exCand 1) exCand 2).image_count =
       (insertRow (.str "u") "S" exCand 1).image_count ∧
     (updatedRow (insertRow (.str "u") "S" exCand 1) exCand 2).first_image_url =
       (insertRow (.str "u") "S" exCand 1).first_image_url ∧
     (updatedRow (insertRow (.str "u") "S" exCand 1) exCand 2).site_name =
       (insertRow (.str "u") "S" exCand 1).site_name ∧
     (updatedRow (insertRow (.str "u") "S" exCand 1) exCand 2).url =
       (insertRow (.str "u") "S" exCand 1).url ∧
     (updatedRow (insertRow (.str "u") "S" exCand 1) exCand 2).first_seen =
       (insertRow (.str "u") "S" exCand 1).first_seen) := by
  have h := claim_C2_amended "S" (.str "u") exCand ⟨[]⟩ exNM exNM 1 2 true true
  exact ⟨h.1, h.2.1,
    h.2.2 (insertRow (.str "u") "S" exCand 1)
      (updatedRow (insertRow (.str "u") "S" exCand 1) exCand 2)
      (by decide) (by decide)⟩

/-- C3: the raw_data column never holds the serialized merged candidate on
its own.  On insert it holds the serialized db_insert_data dict and on
update the serialized update payload, each of which nests the candidate
under its own raw_data key; the timestamps part of the claim does hold
(last_updated = last_checked = now of the update).  Consumers reading
top-level keys of the decoded column (web_service.py reads area_m2,
main_image there) can therefore never see them. -/
theorem claim_C3_divergence :
    ((processCandidate "S" (.str "u") exCand ⟨[]⟩ exNM 1 true).db.get_listing_by_url
        (.str "u")).map Row.raw_data ≠ some (recPayload exCand) ∧
    ((processCandidate "S" (.str "u") exCand
        (processCandidate "S" (.str "u") exCand ⟨[]⟩ exNM 1 true).db exNM 2 true).db.get_listing_by_url
        (.str "u")).map Row.raw_data ≠ some (recPayload exCand) ∧
    ((processCandidate "S" (.str "u") exCand
        (processCandidate "S" (.str "u") exCand ⟨[]⟩ exNM 1 true).db exNM 2 true).db.get_listing_by_url
        (.str "u")).map (fun r => Payload.get? r.raw_data "raw_data") =
      some (some (.dict exCand)) ∧
    ((processCandidate "S" (.str "u") exCand
        (processCandidate "S" (.str "u") exCand ⟨[]⟩ exNM 1 true).db exNM 2 true).db.get_listing_by_url
        (.str "u")).map Row.last_updated = some 2 ∧
    ((processCandidate "S" (.str "u") exCand
        (processCandidate "S" (.str "u") exCand ⟨[]⟩ exNM 1 true).db exNM 2 true).db.get_listing_by_url
        (.str "u")).map Row.last_checked = some 2 := by
  decide

/-- C9 counterexample: a stored NULL description reconciled against the
literal string None emits the change tuple (description, None, None),
whose stringified old and new values are equal — change tuples are
produced on raw value inequality, not on stringified inequality. -/
theorem claim_C9_counterexample :
    (⟨"description", "None", "None"⟩ : ChangeEntry) ∈
      (processCandidate "S" (.str "u2")
        [("url", .str "u2"), ("description", .str "None")]
        ⟨[exRowN]⟩ exNM 1 true).changes ∧
    ChangeEntry.old ⟨"description", "None", "None"⟩ =
      ChangeEntry.new ⟨"description", "None", "None"⟩ := by
  constructor
  · decide
  · rfl

/-- C9 amended: every emitted change tuple is for a tracked field and is
produced exactly because the compared (type-converted) old and new values
differ as values; its recorded stringified-and-truncated forms may still
coincide. -/
theorem claim_C9_amended (site : String) (url : Val) (cand : Record) (db : DB)
    (nm : NMState) (now : Nat) (ok : Bool) (row : Row) (e : ChangeEntry)
    (hget : db.get_listing_by_url url = some row)
    (he : e ∈ (processCandidate site url cand db nm now ok).changes) :
    e.field ∈ TRACKED_FIELDS_FOR_NOTIFICATION ∧
    (convPair e.field (row.field e.field) (cand.getVal e.field)).1 ≠
      (convPair e.field (row.field e.field) (cand.getVal e.field)).2 := by
  rw [processCandidate_changes _ _ _ _ _ _ _ row hget] at he
  obtain ⟨f, _, ht, hef, hne, _⟩ := mem_changes row cand e he
  subst hef
  exact ⟨ht, hne⟩

/-- C9 amended witness. -/
theorem claim_C9_amended_witness :
    ChangeEntry.field ⟨"description", "None", "None"⟩ ∈
      TRACKED_FIELDS_FOR_NOTIFICATION ∧
    (convPair (ChangeEntry.field ⟨"description", "None", "None"⟩)
        (exRowN.field (ChangeEntry.field ⟨"description", "None", "None"⟩))
        (Record.getVal [("url", .str "u2"), ("description", .str "None")]
          (ChangeEntry.field ⟨"description", "None", "None"⟩))).1 ≠
      (convPair (ChangeEntry.field ⟨"description", "None", "None"⟩)
        (exRowN.field (ChangeEntry.field ⟨"description", "None", "None"⟩))
        (Record.getVal [("url", .str "u2"), ("description", .str "None")]
          (ChangeEntry.field ⟨"description", "None", "None"⟩))).2 :=
  claim_C9_amended "S" (.str "u2") [("url", .str "u2"), ("description", .str "None")]
    ⟨[exRowN]⟩ exNM 1 true exRowN ⟨"description", "None", "None"⟩
    (by decide) (by decide)

/-- C10.  Every emitted change tuple records exactly the first 50
characters of the stringified compared old and new values; when those
50-character prefixes agree the recorded old and new values are equal, the
updated-listing embed filter drops the entry, and when every entry is like
that the embed builder returns None, so nothing is sent for it. -/
theorem claim_C10 (site : String) (url : Val) (cand lst : Record) (db : DB)
    (nm : NMState) (now : Nat) (ok ig : Bool) (row : Row) (e : ChangeEntry)
    (hget : db.get_listing_by_url url = some row)
    (he : e ∈ (processCandidate site url cand db nm now ok).changes) :
    (e.old = (pyStr (convPair e.field (row.field e.field) (cand.getVal e.field)).1).take 50 ∧
     e.new = (pyStr (convPair e.field (row.field e.field) (cand.getVal e.field)).2).take 50) ∧
    ((pyStr (convPair e.field (row.field e.field) (cand.getVal e.field)).1).take 50 =
        (pyStr (convPair e.field (row.field e.field) (cand.getVal e.field)).2).take 50 →
      e.old = e.new ∧ keepChange ig e = false ∧
      e ∉ ((processCandidate site url cand db nm now ok).changes.filter (keepChange ig))) ∧
    ((∀ e2 ∈ (processCandidate site url cand db nm now ok).changes, e2.old = e2.new) →
      format_updated_listing_embed ig lst
        ((processCandidate site url cand db nm now ok).changes) = Option.none) := by
  rw [processCandidate_changes _ _ _ _ _ _ _ row hget] at he ⊢
  obtain ⟨f, _, ht, hef, hne, hee⟩ := mem_changes row cand e he
  subst hef
  refine ⟨⟨?_, ?_⟩, ?_, ?_⟩
  · conv_lhs => rw [hee]
  · conv_lhs => rw [hee]
  · intro hpre
    have heq : e.old = e.new := by
      rw [show e.old = (pyStr (convPair e.field (row.field e.field)
          (cand.getVal e.field)).1).take 50 from by conv_lhs => rw [hee]]
      rw [show e.new = (pyStr (convPair e.field (row.field e.field)
          (cand.getVal e.field)).2).take 50 from by conv_lhs => rw [hee]]
      exact hpre
    refine ⟨heq, keepChange_eq_false ig e heq, ?_⟩
    simp [List.mem_filter, keepChange_eq_false ig e heq]
  · intro hall
    unfold format_updated_listing_embed
    have hfil : (computeDiff row cand).2.filter (keepChange ig) = [] := by
      rw [List.filter_eq_nil_iff]
      intro a ha
      simp [keepChange_eq_false ig a (hall a ha)]
    rw [hfil]
    rfl

/-- C10 witness: the (description, None, None) entry is recorded truncated
and equal, is filtered out, and yields no embed. -/
theorem claim_C10_witness :
    (⟨"description", "None", "None"⟩ : ChangeEntry).old =
      (⟨"description", "None", "None"⟩ : ChangeEntry).new ∧
    keepChange false ⟨"description", "None", "None"⟩ = false ∧
    (⟨"description", "None", "None"⟩ : ChangeEntry) ∉
      ((processCandidate "S" (.str "u2")
        [("url", .str "u2"), ("description", .str "None"), ("image_count", .int 0)]
        ⟨[exRowN]⟩ exNM 1 true).changes.filter (keepChange false)) ∧
    format_updated_listing_embed false
      [("url", .str "u2"), ("description", .str "None"), ("image_count", .int 0)]
      ((processCandidate "S" (.str "u2")
        [("url", .str "u2"), ("description", .str "None"), ("image_count", .int 0)]
        ⟨[exRowN]⟩ exNM 1 true).changes) = Option.none := by
  have h := claim_C10 "S" (.str "u2")
    [("url", .str "u2"), ("description", .str "None"), ("image_count", .int 0)]
    [("url", .str "u2"), ("description", .str "None"), ("image_count", .int 0)]
    ⟨[exRowN]⟩ exNM 1 true false exRowN ⟨"description", "None", "None"⟩
    (by decide) (by decide)
  have hb := h.2.1 (by decide)
  exact ⟨hb.1, hb.2.1, hb.2.2, h.2.2 (by decide)⟩

/-- C4.  When the detail fetch or the detail parse of a summary fails, the
summary yields no candidate, the dispatcher state is untouched, and the
store is touched only in the last_checked column of an already known url
(nothing at all for an unknown url); processing of the remaining summaries
of the page continues from that state. -/
theorem claim_C4 (site : String) (ex : Extractor) (ok : Bool) (st : ScrapeState)
    (summary : Record) (url : Val)
    (hurl : Record.getVal summary "url" = url) (ht : url.truthy = true)
    (hfail : htmlTruthy (ex.fetch_listing_details_page url) = false ∨
      detailTruthy (ex.parse_listing_details
        ((ex.fetch_listing_details_page url).getD "")) = false) :
    (processSummary site ex ok st summary).2 = Option.none ∧
    (processSummary site ex ok st summary).1.nm = st.nm ∧
    ((st.db.get_listing_by_url url).isSome = false →
      (processSummary site ex ok st summary).1.db = st.db) ∧
    List.Forall₂ (fun ro rn => rn.url = ro.url ∧ rn.site_name = ro.site_name ∧
      rn.title = ro.title ∧ rn.price = ro.price ∧ rn.description = ro.description ∧
      rn.image_count = ro.image_count ∧ rn.first_image_url = ro.first_image_url ∧
      rn.raw_data = ro.raw_data ∧ rn.first_seen = ro.first_seen ∧
      rn.last_updated = ro.last_updated)
      st.db.rows (processSummary site ex ok st summary).1.db.rows ∧
    (∀ row, st.db.get_listing_by_url url = some row →
      (processSummary site ex ok st summary).1.db.get_listing_by_url url =
        some { row with last_checked := st.clock }) ∧
    (∀ rest, processSummaries site ex ok st (summary :: rest) =
      processSummaries site ex ok (processSummary site ex ok st summary).1 rest) := by
  have hr : processSummary site ex ok st summary =
      (if (st.db.get_listing_by_url url).isSome then
        { st with db := st.db.update_last_checked url st.clock, clock := st.clock + 1 }
       else { st with clock := st.clock + 1 }, Option.none) := by
    unfold processSummary
    rw [hurl]
    by_cases hh : htmlTruthy (ex.fetch_listing_details_page url) = true
    · have hd : detailTruthy (ex.parse_listing_details
          ((ex.fetch_listing_details_page url).getD "")) = false := by
        rcases hfail with h | h
        · rw [h] at hh; exact absurd hh (by simp)
        · exact h
      simp [ht, hh, hd]
    · have hh2 : htmlTruthy (ex.fetch_listing_details_page url) = false := by
        simpa using hh
      simp [ht, hh2]
  refine ⟨by rw [hr], ?_, ?_, ?_, ?_, ?_⟩
  · rw [hr]
    by_cases hex : (st.db.get_listing_by_url url).isSome <;> simp [hex]
  · intro hnone
    rw [hr]
    simp [hnone]
  · rw [hr]
    by_cases hex : (st.db.get_listing_by_url url).isSome
    · simp only [hex, if_true]
      unfold DB.update_last_checked
      apply forall₂_map_self
      intro r
      by_cases hu : r.url = url <;> simp [hu]
    · simp only [hex, Bool.false_eq_true, if_false]
      rw [List.forall₂_same]
      intro r _
      exact ⟨rfl, rfl, rfl, rfl, rfl, rfl, rfl, rfl, rfl, rfl⟩
  · intro row hrow
    rw [hr]
    have hex : (st.db.get_listing_by_url url).isSome := by rw [hrow]; rfl
    simp only [hex, if_true]
    rw [get_update_last_checked, hrow]
    rfl
  · intro rest
    have h2 : (processSummary site ex ok st summary).2 = Option.none := by rw [hr]
    have hun : processSummaries site ex ok st (summary :: rest) =
        (let w := processSummaries site ex ok
          (processSummary site ex ok st summary).1 rest
         (w.1, (processSummary site ex ok st summary).2.toList ++ w.2)) := rfl
    rw [hun, h2]
    rfl

/-- C4 witness: a failing detail fetch for a known url touches only
last_checked and yields nothing. -/
theorem claim_C4_witness :
    (processSummary "S" exFailEx true ⟨⟨[exRowN]⟩, exNM, 9⟩ [("url", .str "u2")]).2 =
      Option.none ∧
    (processSummary "S" exFailEx true ⟨⟨[exRowN]⟩, exNM, 9⟩ [("url", .str "u2")]).1.nm =
      exNM ∧
    (processSummary "S" exFailEx true
        ⟨⟨[exRowN]⟩, exNM, 9⟩ [("url", .str "u2")]).1.db.get_listing_by_url (.str "u2") =
      some ⟨.str "u2", .str "S", .none, .none, .none, .int 0, .none, [], 0, 0, 9⟩ := by
  have h := claim_C4 "S" exFailEx true ⟨⟨[exRowN]⟩, exNM, 9⟩ [("url", .str "u2")]
    (.str "u2") (by decide) (by decide) (Or.inl (by decide))
  exact ⟨h.1, h.2.1, h.2.2.2.2.1 exRowN (by decide)⟩

/-- C5.  For every extractor the crawl visits pages 1, 2, ... in order and
terminates: the visited pages are exactly 1..k for some k at most
MAX_PAGES, every visited page had content, every visited page before the
last reported has_next_page, and stopping before the cap means the next
page had no content or the last visited page reported
has_next_page = false; the stub extractor whose has_next_page is false on
page 3 visits pages 1-3 and stops. -/
theorem claim_C5 (MAX : Nat) (site : String) (ex : Extractor) (ok : Bool)
    (st : ScrapeState) :
    (∃ k, k ≤ MAX ∧
      (scrape MAX site ex ok st).2.2 = List.range' 1 k ∧
      (∀ i, i < k → pageGood ex (1 + i) = true) ∧
      (∀ i, i + 1 < k → pageHasNext ex (1 + i) = true) ∧
      (k < MAX → pageGood ex (1 + k) = false ∨ (0 < k ∧ pageHasNext ex k = false))) ∧
    (scrape 5 "S" stubEx true ⟨⟨[]⟩, exNM, 0⟩).2.2 = [1, 2, 3] := by
  constructor
  · obtain ⟨k, hk, hres, hgood, hnext, hstop⟩ := scrapeGo_spec site ex ok MAX 1 st
    refine ⟨k, hk, hres, hgood, hnext, ?_⟩
    intro hlt
    rcases hstop hlt with h | h
    · exact Or.inl h
    · refine Or.inr ⟨h.1, ?_⟩
      have he : 1 + k - 1 = k := by omega
      rw [← he]
      exact h.2
  · decide

/-- C5 witness: the stub run. -/
theorem claim_C5_witness :
    (scrape 5 "S" stubEx true ⟨⟨[]⟩, exNM, 0⟩).2.2 = [1, 2, 3] :=
  (claim_C5 5 "S" stubEx true ⟨⟨[]⟩, exNM, 0⟩).2

end Scrapper

